import Mathlib

/-!
Shallow embedding of the privileged control core of the baremetal-arm
tutorial repository: the cooperative scheduler (08_scheduler/src/sched.c),
the system-time service and the timer-driven scheduler
(09_context_switch/src/systime.c), the GIC interrupt-controller driver and
the top-level interrupt dispatcher (doc/07_interrupts.md and the
context-switch chapter).  Machine integers (`uint32_t`, `uint16_t`) are
modelled as `Nat` with explicit reduction modulo `2^32` (resp. bit masks)
exactly where the C arithmetic wraps.
-/

namespace Baremetal

/-- Modulus of `uint32_t` arithmetic. -/
def U32MOD : Nat := 4294967296

/-- Wrapping 32-bit subtraction `a - b` for values below `2^32`
(the C expression `a - b` on `uint32_t`). -/
def u32sub (a b : Nat) : Nat := (a % U32MOD + U32MOD - b % U32MOD) % U32MOD

/-- Due check of the cooperative scheduler, from `sched_run` in
08_scheduler/src/sched.c: `task->last_run + task->period <= systime_get()`,
the `uint32_t` addition wrapping modulo `2^32`.  The source line carries the
comment "Overflow bug!". -/
def sched_task_due (last_run period now : Nat) : Bool :=
  decide ((last_run + period) % U32MOD ≤ now)

/-- Due check of the system-time event table, from `check_callbacks` in
09_context_switch/src/systime.c: `systime >= callback_table[slot].time`,
a plain unsigned comparison against the stored absolute trigger time. -/
def systime_event_due (time now : Nat) : Bool :=
  decide (time ≤ now)

/-- The overflow-safe form the specification demands of every consumer:
elapsed time computed as the wrapping subtraction `now - reference`
modulo `2^32`, compared against the period. -/
def spec_safe_due (now reference period : Nat) : Bool :=
  decide (u32sub now reference ≥ period)

/-- GIC Distributor register state touched by `gic_enable_interrupt`:
the Set-Enable register array `DISENABLER` and the CPU-target register
array `DITARGETSR`, each register a 32-bit word, indexed as in gic.h. -/
structure GicDistributor where
  DISENABLER : Nat → Nat
  DITARGETSR : Nat → Nat

/-- Embedding of `gic_enable_interrupt(uint8_t number)` from
doc/07_interrupts.md: read-modify-write of `DISENABLER[number / 32]`
OR-ing in `1u << (number % 32)`, then of `DITARGETSR[number / 4]` OR-ing in
`1u << ((number % 4) * 8)`; each result is stored through `WRITE32` as a
32-bit word. -/
def gic_enable_interrupt (gic : GicDistributor) (number : Nat) : GicDistributor :=
  let reg := number / 32
  let bit := number % 32
  let reg_val := (gic.DISENABLER reg ||| (1 <<< bit)) % U32MOD
  let reg2 := number / 4
  let bit2 := (number % 4) * 8
  let reg_val2 := (gic.DITARGETSR reg2 ||| (1 <<< bit2)) % U32MOD
  { DISENABLER := fun i => if i = reg then reg_val else gic.DISENABLER i
    DITARGETSR := fun i => if i = reg2 then reg_val2 else gic.DITARGETSR i }

/-! ### System-time service (09_context_switch/src/systime.c) -/

/-- `MAX_NUM_CALLBACKS` from systime.c. -/
def MAX_NUM_CALLBACKS : Nat := 16

/-- One `callback_entry` of the scheduled-event table.  The `systime_callback`
function pointer and the opaque `void*` argument are modelled as `Nat`
codes. -/
structure callback_entry where
  time : Nat
  period : Nat
  cb : Nat
  arg : Nat
deriving DecidableEq, Repr, Inhabited

/-- Zero-initialized entry, matching `callback_table[...] = {0}`. -/
def emptyEntry : callback_entry := ⟨0, 0, 0, 0⟩

/-- The mutable state of systime.c: the event table, its occupancy bitmask
(`uint16_t callback_table_mask`) and the tick counter (`uint32_t systime`). -/
structure SystimeState where
  callback_table : List callback_entry
  callback_table_mask : Nat
  systime : Nat
deriving DecidableEq, Repr

/-- Initial state of systime.c: zeroed table of 16 entries, mask 0, time 0. -/
def systimeInit : SystimeState :=
  ⟨List.replicate MAX_NUM_CALLBACKS emptyEntry, 0, 0⟩

/-- Effect of firing the entry at `slot` inside `check_callbacks`, before the
callback is invoked: a periodic entry is re-armed with
`callback_table[slot].time = systime + callback_table[slot].period` (wrapping),
a one-shot entry has its occupancy bit cleared with
`callback_table_mask &= ~(1 << slot)`. -/
def fire_slot (st : SystimeState) (slot : Nat) : SystimeState :=
  let e := st.callback_table.getD slot emptyEntry
  if e.period ≠ 0 then
    { st with callback_table :=
        st.callback_table.set slot { e with time := (st.systime + e.period) % U32MOD } }
  else
    { st with callback_table_mask := st.callback_table_mask &&& (65535 ^^^ (1 <<< slot)) }

/-- Occupied-and-due test performed by the `check_callbacks` loop at one slot:
`callback_table_mask & (1 << slot)` and then `systime >= callback_table[slot].time`. -/
def dueOcc (st : SystimeState) (slot : Nat) : Bool :=
  st.callback_table_mask.testBit slot &&
    systime_event_due (st.callback_table.getD slot emptyEntry).time st.systime

/-- The `check_callbacks` loop over the given slot list.  On the first
occupied, due slot it re-arms or frees the entry, records the invocation
`cb(arg)` and stops (the `break` after the callback call).  It returns the
new state together with the list of performed invocations
`(slot, cb, arg)`.  The callback bodies used in this system
(`task_switch_callback`) never touch the systime state, so invoking them
after the scan returns is equivalent to invoking them inside it. -/
def check_callbacks_aux (st : SystimeState) :
    List Nat → SystimeState × List (Nat × Nat × Nat)
  | [] => (st, [])
  | slot :: rest =>
    if dueOcc st slot then
      (fire_slot st slot,
        [(slot, (st.callback_table.getD slot emptyEntry).cb,
          (st.callback_table.getD slot emptyEntry).arg)])
    else
      check_callbacks_aux st rest

/-- `check_callbacks`: scan slots `0 .. MAX_NUM_CALLBACKS - 1` in order. -/
def check_callbacks (st : SystimeState) : SystimeState × List (Nat × Nat × Nat) :=
  check_callbacks_aux st (List.range MAX_NUM_CALLBACKS)

/-- `systime_tick` from systime.c: increment the wrapping tick counter, then
run the due-entry scan. -/
def systime_tick (st : SystimeState) : SystimeState × List (Nat × Nat × Nat) :=
  check_callbacks { st with systime := (st.systime + 1) % U32MOD }

/-- `add_callback` from systime.c: fails if the slot is occupied, otherwise
stores timestamp, period, callback and argument there and sets the
occupancy bit. -/
def add_callback (st : SystimeState) (timestamp period cb arg slot : Nat) :
    SystimeState × Bool :=
  if st.callback_table_mask.testBit slot then (st, false)
  else
    ({ st with
        callback_table := st.callback_table.set slot ⟨timestamp, period, cb, arg⟩,
        callback_table_mask := st.callback_table_mask ||| (1 <<< slot) }, true)

/-- Result codes of `systime_schedule_event`. -/
inductive systime_callback_error where
  | SYSTIME_CALLBACK_OK
  | SYSTIME_NO_CALLBACK_SLOTS
deriving DecidableEq, Repr

/-- Loop body of `systime_schedule_event`: try `add_callback` on each slot in
order, returning on the first success. -/
def systime_schedule_event_aux (st : SystimeState) (timestamp period cb arg : Nat) :
    List Nat → SystimeState × systime_callback_error
  | [] => (st, .SYSTIME_NO_CALLBACK_SLOTS)
  | slot :: rest =>
    match add_callback st timestamp period cb arg slot with
    | (st2, true) => (st2, .SYSTIME_CALLBACK_OK)
    | (_, false) => systime_schedule_event_aux st timestamp period cb arg rest

/-- `systime_schedule_event` from systime.c. -/
def systime_schedule_event (st : SystimeState) (timestamp period cb arg : Nat) :
    SystimeState × systime_callback_error :=
  systime_schedule_event_aux st timestamp period cb arg (List.range MAX_NUM_CALLBACKS)

/-! ### Task table (sched_add_task, shared by 08_scheduler/src/sched.c and
the context-switch chapter scheduler) -/

/-- `MAX_NUM_TASKS` from sched.h. -/
def MAX_NUM_TASKS : Nat := 10

/-- One `task_desc`.  The entry function pointer is a `Nat` code with `0`
standing for `NULL`. -/
structure task_desc where
  id : Nat
  entry : Nat
  period : Nat
  last_run : Nat
deriving DecidableEq, Repr

/-- Zero-initialized descriptor, matching `task_table[...] = {0}`. -/
def emptyTask : task_desc := ⟨0, 0, 0, 0⟩

/-- The scheduler's table state: `task_table` and the fill counter
`table_idx`. -/
structure SchedState where
  task_table : List task_desc
  table_idx : Nat
deriving DecidableEq, Repr

/-- Initial scheduler state. -/
def schedInit : SchedState := ⟨List.replicate MAX_NUM_TASKS emptyTask, 0⟩

/-- Result codes of `sched_add_task`. -/
inductive sched_error where
  | SCHED_OK
  | SCHED_TOO_MANY_TASKS
deriving DecidableEq, Repr

/-- `sched_add_task`: reject when the table is full, otherwise fill the next
slot with id `table_idx`, the entry, the period and `last_run = 0`, and
advance the fill counter. -/
def sched_add_task (st : SchedState) (entry period : Nat) : SchedState × sched_error :=
  if st.table_idx ≥ MAX_NUM_TASKS then (st, .SCHED_TOO_MANY_TASKS)
  else
    ({ task_table := st.task_table.set st.table_idx ⟨st.table_idx, entry, period, 0⟩,
       table_idx := st.table_idx + 1 }, .SCHED_OK)

/-- Run a sequence of `sched_add_task` calls, collecting the returned error
codes. -/
def runAddTasks (st : SchedState) : List (Nat × Nat) → SchedState × List sched_error
  | [] => (st, [])
  | (e, p) :: rest =>
    match sched_add_task st e p with
    | (st2, r) =>
      match runAddTasks st2 rest with
      | (stf, rs) => (stf, r :: rs)

/-! ### Whole-system simulation of the timer-driven scheduler
(09_context_switch: systime.c's scheduler half, tasks.c, cstart.c).

The only callback ever registered is `task_switch_callback`; its function
pointer is modelled by the code `CB_TASK_SWITCH`.  The registered tasks,
`task0` and `task1` from tasks.c, both busy-wait until 1000 ticks have
elapsed (`while (start + 1000u > systime_get());`) and then return.  A
timer interrupt arrives once per tick; the interrupt calls `systime_tick`
(counter increment plus `check_callbacks`), after which the interrupted
mainline code resumes. -/

/-- Function-pointer code of `task_switch_callback`. -/
def CB_TASK_SWITCH : Nat := 1

/-- Busy-wait length of the task bodies in tasks.c (both `task0` and
`task1` spin for 1000 ticks). -/
def WORKLOAD : Nat := 1000

/-- Progress of the mainline (non-interrupt) code: either the `sched_run`
loop is idling, or `run_task` has entered a task body, which recorded
`start = systime_get()` on entry. -/
inductive MainState where
  | idle
  | running (id : Nat) (start : Nat)
deriving DecidableEq, Repr

/-- One "Switching context!" line written by `task_switch_callback`:
the systime at which it was printed, the previous current task
(`none` printed as "(idle)") and the new task id. -/
structure LogEntry where
  time : Nat
  fromTask : Option Nat
  toTask : Nat
deriving DecidableEq, Repr

/-- Complete simulation state: the systime module state, the task table,
the `current_task` pointer (`none` = `NULL`), the mainline progress, the
context-switch log, and the trace of task entries performed by `run_task`
(each a privilege transition into the task body), as pairs
`(task id, systime at entry)`. -/
structure SimState where
  time : SystimeState
  sched : SchedState
  current_task : Option Nat
  mainline : MainState
  log : List LogEntry
  entered : List (Nat × Nat)
deriving DecidableEq, Repr

/-- `task_switch_callback(void* arg)` from the context-switch scheduler:
if the requested task is already current, do nothing; otherwise print the
transition and update the `current_task` pointer.  (`save_context` has an
empty body in the committed source.)  It runs in interrupt context and
touches nothing but `current_task` and the log. -/
def task_switch_callback (s : SimState) (arg : Nat) : SimState :=
  let new_task_id := arg
  match s.current_task with
  | some cur =>
    if new_task_id = cur then s
    else
      { s with log := s.log ++ [⟨s.time.systime, some cur, new_task_id⟩],
               current_task := some new_task_id }
  | none =>
      { s with log := s.log ++ [⟨s.time.systime, none, new_task_id⟩],
               current_task := some new_task_id }

/-- Dispatch of a fired callback through its stored function pointer. -/
def invoke_callback (s : SimState) (cb arg : Nat) : SimState :=
  if cb = CB_TASK_SWITCH then task_switch_callback s arg else s

/-- One timer interrupt: `systime_tick()` increments the counter and runs
`check_callbacks`, which invokes at most one due callback. -/
def tick_step (s : SimState) : SimState :=
  let st := { s.time with systime := (s.time.systime + 1) % U32MOD }
  match check_callbacks st with
  | (st2, fired) =>
    let s2 := { s with time := st2 }
    match fired with
    | [] => s2
    | (_, cb, arg) :: _ => invoke_callback s2 cb arg

/-- Mainline progress during one tick interval, after the interrupt
returned.  A running task returns once its busy-wait condition
`start + 1000u > systime_get()` fails, whereupon `sched_run` resets
`current_task` to `NULL`; an idle loop with a non-`NULL` `current_task`
performs `run_task(current_task->entry)`, entering the task, which latches
`start = systime_get()`. -/
def mainline_step (s : SimState) : SimState :=
  match s.mainline with
  | .running _ start =>
    if (start + WORKLOAD) % U32MOD ≤ s.time.systime then
      { s with mainline := .idle, current_task := none }
    else s
  | .idle =>
    match s.current_task with
    | some id =>
      { s with mainline := .running id s.time.systime,
               entered := s.entered ++ [(id, s.time.systime)] }
    | none => s

/-- Registration loop at the top of the timer-driven `sched_run`: for every
task with a non-`NULL` entry, schedule a periodic event at
`next_run = task->last_run + task->period` with the task's period,
`task_switch_callback` and the task id as argument (the return value of
`systime_schedule_event` is discarded). -/
def sched_run_register (s : SimState) : List Nat → SimState
  | [] => s
  | i :: rest =>
    let task := s.sched.task_table.getD i emptyTask
    if task.entry = 0 then sched_run_register s rest
    else
      match systime_schedule_event s.time ((task.last_run + task.period) % U32MOD)
          task.period CB_TASK_SWITCH task.id with
      | (st2, _) => sched_run_register { s with time := st2 } rest

/-- The setup phase of the timer-driven `sched_run`: register the per-task
events, then unconditionally point `current_task` at the first table entry
("Simplification: always start the first task added"). -/
def sched_run_setup (s : SimState) : SimState :=
  let s2 := sched_run_register s (List.range MAX_NUM_TASKS)
  { s2 with current_task := some 0 }

/-- Initial simulation state after `main` has added the given
`(entry, period)` tasks through `sched_add_task` and before `sched_run`. -/
def simInitFor (tasks : List (Nat × Nat)) : SimState :=
  { time := systimeInit
    sched := (runAddTasks schedInit tasks).1
    current_task := none
    mainline := .idle
    log := []
    entered := [] }

/-- State at tick 0: `sched_run` has registered the events, pointed
`current_task` at task 0, and its while-loop has made its first pass. -/
def simStartFor (tasks : List (Nat × Nat)) : SimState :=
  mainline_step (sched_run_setup (simInitFor tasks))

/-- Entry-pointer code of `task0` (period 5000, added first in cstart.c). -/
def TASK0_ENTRY : Nat := 1

/-- Entry-pointer code of `task1` (period 2000, added second in cstart.c). -/
def TASK1_ENTRY : Nat := 2

/-- The walkthrough scenario of the context-switch chapter:
`sched_add_task(&task0, 5000u); sched_add_task(&task1, 2000u);`. -/
def scenarioTasks : List (Nat × Nat) := [(TASK0_ENTRY, 5000), (TASK1_ENTRY, 2000)]

/-- One tick of the full system: the timer interrupt, then mainline
progress until the next tick. -/
def simStep (s : SimState) : SimState := mainline_step (tick_step s)

/-- Iterate `simStep` the given number of times. -/
def simIter : Nat → SimState → SimState
  | 0, s => s
  | n + 1, s => simIter n (simStep s)

/-- Simulation state after `n` ticks of the walkthrough scenario;
the systime counter equals `n`. -/
def simAfter (n : Nat) : SimState := simIter n (simStartFor scenarioTasks)

/-- Advance only the tick counter, leaving everything else in place: the
observable effect of `k` uneventful ticks. -/
def bump (k : Nat) (s : SimState) : SimState :=
  { s with time := { s.time with systime := s.time.systime + k } }

/-- Sufficient condition for the next `k` ticks to be uneventful: the counter
does not wrap, no occupied event-table slot becomes due, and the mainline
neither finishes a running task nor has a pending task entry to perform. -/
def quietOk (s : SimState) (k : Nat) : Bool :=
  decide (s.time.systime + k < U32MOD) &&
  ((List.range MAX_NUM_CALLBACKS).all fun slot =>
      !(s.time.callback_table_mask.testBit slot) ||
        decide (s.time.systime + k < (s.time.callback_table.getD slot emptyEntry).time)) &&
  (match s.mainline with
   | .idle => s.current_task.isNone
   | .running _ start => decide (s.time.systime + k < (start + WORKLOAD) % U32MOD))

/-- The task table produced by the scenario's two `sched_add_task` calls. -/
def scenarioSched : SchedState :=
  ⟨⟨0, TASK0_ENTRY, 5000, 0⟩ :: ⟨1, TASK1_ENTRY, 2000, 0⟩ :: List.replicate 8 emptyTask, 2⟩

/-- The seven context-switch lines logged during the scenario's first
10001 ticks. -/
def scenarioLog : List LogEntry :=
  [⟨2000, none, 1⟩, ⟨4000, none, 1⟩, ⟨5000, some 1, 0⟩, ⟨6000, none, 1⟩,
   ⟨8000, none, 1⟩, ⟨10000, none, 0⟩, ⟨10001, some 0, 1⟩]

/-- The task entries performed during the scenario's first 10001 ticks. -/
def scenarioEntered : List (Nat × Nat) :=
  [(0, 0), (1, 2000), (1, 4000), (1, 6000), (1, 8000), (0, 10000)]

/-- Scenario state with the event-table slots armed for `t0` (task 0) and
`t1` (task 1), tick counter `sys`, `current_task` pointer `cur`, mainline
progress `ml`, and the first `nl` log lines and `ne` task entries. -/
def snapState (t0 t1 sys : Nat) (cur : Option Nat) (ml : MainState)
    (nl ne : Nat) : SimState :=
  { time := { callback_table := ⟨t0, 5000, CB_TASK_SWITCH, 0⟩ ::
                ⟨t1, 2000, CB_TASK_SWITCH, 1⟩ :: List.replicate 14 emptyEntry,
              callback_table_mask := 3, systime := sys }
    sched := scenarioSched
    current_task := cur
    mainline := ml
    log := scenarioLog.take nl
    entered := scenarioEntered.take ne }

/-- Observable actions of the top-level interrupt dispatcher, in order:
reading the acknowledge register, invoking a looked-up reaction, writing
the end-of-interrupt register. -/
inductive GicEvent where
  | ack (irq : Nat)
  | run (reaction : Nat)
  | eoi (irq : Nat)
deriving DecidableEq, Repr

/-- `gic_acknowledge_interrupt`: the low 10 bits of the CIAR register
(`CIAR & CIAR_ID_MASK`, mask `0x3FF`). -/
def gic_acknowledge_interrupt (ciar : Nat) : Nat := ciar &&& 1023

/-- Embedding of `irq_handler` from the context-switch chapter:
`irq = gic_acknowledge_interrupt(); isr = callback(irq);
if (isr != NULL) isr(); gic_end_interrupt(irq);`.  The identifier-to-reaction
mapping is a parameter returning `none` for a `NULL` `isr_ptr`; the function
returns the trace of dispatcher actions. -/
def irq_handler (ciar : Nat) (callback : Nat → Option Nat) : List GicEvent :=
  let irq := gic_acknowledge_interrupt ciar
  GicEvent.ack irq ::
    ((match callback irq with
      | some isr => [GicEvent.run isr]
      | none => []) ++ [GicEvent.eoi irq])

/-- Intermediate states of the walkthrough scenario at ticks
0, 1000, 2000, ..., 10000, 10001 (indices 0..11), as computed by the
simulation. -/
def scenarioSnap : Nat → SimState
  | 0 => snapState 5000 2000 0 (some 0) (.running 0 0) 0 1
  | 1 => snapState 5000 2000 1000 none .idle 0 1
  | 2 => snapState 5000 4000 2000 (some 1) (.running 1 2000) 1 2
  | 3 => snapState 5000 4000 3000 none .idle 1 2
  | 4 => snapState 5000 6000 4000 (some 1) (.running 1 4000) 2 3
  | 5 => snapState 10000 6000 5000 none .idle 3 3
  | 6 => snapState 10000 8000 6000 (some 1) (.running 1 6000) 4 4
  | 7 => snapState 10000 8000 7000 none .idle 4 4
  | 8 => snapState 10000 10000 8000 (some 1) (.running 1 8000) 5 5
  | 9 => snapState 10000 10000 9000 none .idle 5 5
  | 10 => snapState 15000 10000 10000 (some 0) (.running 0 10000) 6 6
  | _ => snapState 15000 12001 10001 (some 1) (.running 0 10000) 7 6

/-! ### Theorems -/

set_option maxRecDepth 4000

/-- C1 (code bug, demonstrated at the spec's own failure case): the claim
demands that every due-time check be the wrapping subtraction
`(now - reference) ≥ period`, judging a task with
`last_run = U32_MAX - 10`, `period = 100` not due at `now = U32_MAX - 8`
(elapsed 2).  The cooperative scheduler's actual check `sched_task_due`
(`last_run + period <= systime_get()`, marked "Overflow bug!" in sched.c)
instead evaluates true there, because the sum wraps to 89; the safe form
`spec_safe_due` evaluates false, with wrapped elapsed time exactly 2. -/
theorem sched_due_check_uses_unsafe_addition_form :
    sched_task_due (U32MOD - 11) 100 (U32MOD - 9) = true ∧
    ((U32MOD - 11) + 100) % U32MOD = 89 ∧
    spec_safe_due (U32MOD - 9) (U32MOD - 11) 100 = false ∧
    u32sub (U32MOD - 9) (U32MOD - 11) = 2 ∧
    sched_task_due (U32MOD - 11) 100 (U32MOD - 9) ≠
      spec_safe_due (U32MOD - 9) (U32MOD - 11) 100 := by
  decide

/-- The enable registers hold 32-bit words, so the OR of a register value
with a single bit below 32 stays below `2^32`. -/
theorem or_bit_lt_u32 {x b : Nat} (hx : x < U32MOD) (hb : b < 32) :
    (x ||| (1 <<< b)) % U32MOD = x ||| (1 <<< b) := by
  have h32 : U32MOD = 2 ^ 32 := by norm_num [U32MOD]
  have hlt : x ||| (1 <<< b) < 2 ^ 32 := by
    rw [Nat.one_shiftLeft]
    exact Nat.or_lt_two_pow (h32 ▸ hx) (Nat.pow_lt_pow_right (by norm_num) hb)
  rw [h32, Nat.mod_eq_of_lt hlt]

/-- C2 (confirmed): `enable(N)` ORs bit `N % 32` into enable-table register
`N / 32` and bit `(N % 4) * 8` into target-table register `N / 4`, leaving
every other bit of those registers and every other register of both tables
unchanged; concretely line 45 maps to enable register 1, bit 13 and target
register 11, byte offset 8, and line 37 maps to enable register 1, bit 5. -/
theorem gic_enable_interrupt_addressing (gic : GicDistributor) (n : Nat)
    (hdis : gic.DISENABLER (n / 32) < U32MOD)
    (htgt : gic.DITARGETSR (n / 4) < U32MOD) :
    ((gic_enable_interrupt gic n).DISENABLER (n / 32)).testBit (n % 32) = true ∧
    (∀ j, j ≠ n % 32 →
      ((gic_enable_interrupt gic n).DISENABLER (n / 32)).testBit j =
        (gic.DISENABLER (n / 32)).testBit j) ∧
    (∀ i, i ≠ n / 32 →
      (gic_enable_interrupt gic n).DISENABLER i = gic.DISENABLER i) ∧
    ((gic_enable_interrupt gic n).DITARGETSR (n / 4)).testBit (n % 4 * 8) = true ∧
    (∀ j, j ≠ n % 4 * 8 →
      ((gic_enable_interrupt gic n).DITARGETSR (n / 4)).testBit j =
        (gic.DITARGETSR (n / 4)).testBit j) ∧
    (∀ i, i ≠ n / 4 →
      (gic_enable_interrupt gic n).DITARGETSR i = gic.DITARGETSR i) ∧
    (45 / 32 = 1 ∧ 45 % 32 = 13 ∧ 45 / 4 = 11 ∧ 45 % 4 * 8 = 8) ∧
    (37 / 32 = 1 ∧ 37 % 32 = 5) := by
  have hb1 : n % 32 < 32 := Nat.mod_lt _ (by norm_num)
  have hb2 : n % 4 * 8 < 32 := by have := Nat.mod_lt n (y := 4) (by norm_num); omega
  have e1 := or_bit_lt_u32 hdis hb1
  have e2 := or_bit_lt_u32 htgt hb2
  rw [Nat.one_shiftLeft] at e1 e2
  refine ⟨?_, ?_, ?_, ?_, ?_, ?_, by norm_num, by norm_num⟩
  · simp [gic_enable_interrupt, e1, Nat.testBit_or, Nat.one_shiftLeft,
      Nat.testBit_two_pow_self]
  · intro j hj
    simp [gic_enable_interrupt, e1, Nat.testBit_or, Nat.one_shiftLeft,
      Nat.testBit_two_pow_of_ne (Ne.symm hj)]
  · intro i hi
    simp [gic_enable_interrupt, if_neg hi]
  · simp [gic_enable_interrupt, e2, Nat.testBit_or, Nat.one_shiftLeft,
      Nat.testBit_two_pow_self]
  · intro j hj
    simp [gic_enable_interrupt, e2, Nat.testBit_or, Nat.one_shiftLeft,
      Nat.testBit_two_pow_of_ne (Ne.symm hj)]
  · intro i hi
    simp [gic_enable_interrupt, if_neg hi]

/-- Witness for the GIC addressing theorem: applied to zeroed register files
and line 45, the enable write sets bit 13 of enable register 1 and bit 8 of
target register 11. -/
theorem gic_enable_interrupt_addressing_witness :
    ((gic_enable_interrupt ⟨fun _ => 0, fun _ => 0⟩ 45).DISENABLER 1).testBit 13 = true ∧
    ((gic_enable_interrupt ⟨fun _ => 0, fun _ => 0⟩ 45).DITARGETSR 11).testBit 8 = true := by
  have h := gic_enable_interrupt_addressing ⟨fun _ => 0, fun _ => 0⟩ 45
    (by norm_num [U32MOD]) (by norm_num [U32MOD])
  exact ⟨h.1, h.2.2.2.1⟩

/-- The scan performed by `check_callbacks` either fires nothing and leaves
the state alone, or fires exactly one slot, which was occupied and due. -/
theorem check_callbacks_aux_cases (slots : List Nat) (st : SystimeState) :
    (check_callbacks_aux st slots = (st, [])) ∨
    (∃ slot ∈ slots, dueOcc st slot = true ∧
      check_callbacks_aux st slots =
        (fire_slot st slot,
          [(slot, (st.callback_table.getD slot emptyEntry).cb,
            (st.callback_table.getD slot emptyEntry).arg)])) := by
  induction slots with
  | nil => exact Or.inl rfl
  | cons slot rest ih =>
    by_cases h : dueOcc st slot = true
    · exact Or.inr ⟨slot, by simp, h, by simp [check_callbacks_aux, h]⟩
    · rcases ih with h2 | ⟨s2, hs2, hdue, heq⟩
      · exact Or.inl (by simp [check_callbacks_aux, h, h2])
      · exact Or.inr ⟨s2, by simp [hs2], hdue, by simp [check_callbacks_aux, h, heq]⟩

/-- If no listed slot is occupied and due, the scan is a no-op. -/
theorem check_callbacks_aux_none (slots : List Nat) (st : SystimeState)
    (h : ∀ slot ∈ slots, dueOcc st slot = false) :
    check_callbacks_aux st slots = (st, []) := by
  induction slots with
  | nil => rfl
  | cons slot rest ih =>
    have h1 := h slot (by simp)
    simp only [check_callbacks_aux, h1]
    simp only [Bool.false_eq_true, if_false]
    exact ih fun s hs => h s (by simp [hs])

/-- Firing a slot leaves every other slot's table entry unchanged, and every
other table bit of the 16-bit occupancy mask unchanged. -/
theorem fire_slot_other (st : SystimeState) (slot j : Nat) (hj : j ≠ slot)
    (hjlt : j < MAX_NUM_CALLBACKS) :
    (fire_slot st slot).callback_table.getD j emptyEntry =
      st.callback_table.getD j emptyEntry ∧
    (fire_slot st slot).callback_table_mask.testBit j =
      st.callback_table_mask.testBit j := by
  unfold fire_slot
  by_cases h : (st.callback_table.getD slot emptyEntry).period ≠ 0
  · rw [if_pos h]
    exact ⟨by simp [List.getD, List.getElem?_set_ne (Ne.symm hj)], rfl⟩
  · rw [if_neg h]
    refine ⟨rfl, ?_⟩
    have h65535 : (65535 : Nat) = 2 ^ 16 - 1 := by norm_num
    rw [Nat.testBit_and, Nat.testBit_xor, h65535, Nat.testBit_two_pow_sub_one,
      Nat.one_shiftLeft, Nat.testBit_two_pow_of_ne (Ne.symm hj)]
    have : MAX_NUM_CALLBACKS = 16 := rfl
    simp [decide_eq_true_eq, this ▸ hjlt]

/-- C4 (confirmed): every `tick()` invokes at most one event callback, and
the slots other than the fired one — in particular any further entries that
were simultaneously due — keep their table entry and occupancy bit, so they
are picked up by a later tick; concretely, with slots 0 and 1 both due at
time 5, the first scan fires only slot 0 and the scan on the following tick
fires slot 1. -/
theorem check_callbacks_at_most_one (st : SystimeState) (slot cb arg j : Nat)
    (hfired : (check_callbacks st).2 = [(slot, cb, arg)])
    (hj : j ≠ slot) (hjlt : j < MAX_NUM_CALLBACKS) :
    (check_callbacks st).2.length ≤ 1 ∧
    ((check_callbacks st).1.callback_table.getD j emptyEntry =
       st.callback_table.getD j emptyEntry ∧
     (check_callbacks st).1.callback_table_mask.testBit j =
       st.callback_table_mask.testBit j) ∧
    (∀ st2 : SystimeState, (check_callbacks st2).2.length ≤ 1) ∧
    (∀ st2 : SystimeState, (systime_tick st2).2.length ≤ 1) ∧
    ((check_callbacks ⟨⟨5, 7, 1, 0⟩ :: ⟨5, 7, 1, 1⟩ ::
        List.replicate 14 emptyEntry, 3, 5⟩).2.map Prod.fst = [0] ∧
     (check_callbacks { (check_callbacks ⟨⟨5, 7, 1, 0⟩ :: ⟨5, 7, 1, 1⟩ ::
        List.replicate 14 emptyEntry, 3, 5⟩).1 with systime := 6 }).2.map
          Prod.fst = [1]) := by
  have hlen : ∀ st2 : SystimeState, (check_callbacks st2).2.length ≤ 1 := by
    intro st2
    rcases check_callbacks_aux_cases (List.range MAX_NUM_CALLBACKS) st2 with h | ⟨s, _, _, h⟩ <;>
      simp [check_callbacks, h]
  refine ⟨hlen st, ?_, hlen, fun st2 => hlen _, by decide⟩
  rcases check_callbacks_aux_cases (List.range MAX_NUM_CALLBACKS) st with h | ⟨s, _, _, h⟩
  · rw [check_callbacks] at hfired ⊢
    rw [h] at hfired
    exact absurd hfired (by simp)
  · rw [check_callbacks] at hfired ⊢
    rw [h] at hfired ⊢
    have hs : s = slot := by
      have := congrArg (fun l => (l.headD (0, 0, 0)).1) hfired
      simpa using this
    subst hs
    exact fire_slot_other st s j hj hjlt

/-- Witness for the at-most-one-callback property: on a table whose slot 0
holds a due periodic entry, the scan fires once and slot 1's occupancy bit
is untouched. -/
theorem check_callbacks_at_most_one_witness :
    (check_callbacks ⟨⟨5, 7, 1, 9⟩ :: List.replicate 15 emptyEntry, 1, 5⟩).2.length ≤ 1 ∧
    (check_callbacks ⟨⟨5, 7, 1, 9⟩ :: List.replicate 15 emptyEntry, 1,
        5⟩).1.callback_table_mask.testBit 1 = (1 : Nat).testBit 1 := by
  have h := check_callbacks_at_most_one
    ⟨⟨5, 7, 1, 9⟩ :: List.replicate 15 emptyEntry, 1, 5⟩ 0 1 9 1
    (by decide) (by decide) (by decide)
  exact ⟨h.1, h.2.1.2⟩

/-- Scanning the slot range `[a, a + n)` fires the first occupied and due
slot. -/
theorem check_callbacks_aux_first (st : SystimeState) :
    ∀ (n a slot : Nat), a ≤ slot → slot < a + n →
    (∀ k, a ≤ k → k < slot → dueOcc st k = false) → dueOcc st slot = true →
    check_callbacks_aux st (List.range' a n) =
      (fire_slot st slot,
        [(slot, (st.callback_table.getD slot emptyEntry).cb,
          (st.callback_table.getD slot emptyEntry).arg)]) := by
  intro n
  induction n with
  | zero => intro a slot h1 h2; omega
  | succ m ih =>
    intro a slot h1 h2 hbefore hdue
    rw [List.range'_succ]
    rcases Nat.eq_or_lt_of_le h1 with he | hlt
    · subst he
      simp [check_callbacks_aux, hdue]
    · have ha : dueOcc st a = false := hbefore a (le_refl a) hlt
      simp only [check_callbacks_aux, ha, Bool.false_eq_true, if_false]
      exact ih (a + 1) slot hlt (by omega) (fun k hk1 hk2 => hbefore k (by omega) hk2) hdue

/-- C5 (confirmed): when `tick()` fires the due entry at `slot` (the first
occupied due slot), a non-zero-period entry stays occupied with its trigger
time re-armed to `systime + period` modulo `2^32` and its other fields
intact, while a zero-period entry has its occupancy bit cleared with the
table rows left as they were; in both cases the single invocation performed
is of that entry's stored callback with its stored argument. -/
theorem check_callbacks_fire_semantics (st : SystimeState) (slot : Nat)
    (hslot : slot < MAX_NUM_CALLBACKS)
    (hfirst : ∀ k, k < slot → dueOcc st k = false)
    (hdue : dueOcc st slot = true) :
    (check_callbacks st).2 =
      [(slot, (st.callback_table.getD slot emptyEntry).cb,
        (st.callback_table.getD slot emptyEntry).arg)] ∧
    ((st.callback_table.getD slot emptyEntry).period ≠ 0 →
      (check_callbacks st).1.callback_table_mask = st.callback_table_mask ∧
      (check_callbacks st).1.callback_table.getD slot emptyEntry =
        { st.callback_table.getD slot emptyEntry with
          time := (st.systime +
            (st.callback_table.getD slot emptyEntry).period) % U32MOD }) ∧
    ((st.callback_table.getD slot emptyEntry).period = 0 →
      (check_callbacks st).1.callback_table = st.callback_table ∧
      (check_callbacks st).1.callback_table_mask.testBit slot = false) := by
  have hscan := check_callbacks_aux_first st MAX_NUM_CALLBACKS 0 slot (Nat.zero_le _)
    (by omega) (fun k _ hk => hfirst k hk) hdue
  rw [check_callbacks, List.range_eq_range', hscan]
  refine ⟨rfl, ?_, ?_⟩
  · intro hp
    rw [fire_slot, if_pos hp]
    refine ⟨rfl, ?_⟩
    have hlen : slot < st.callback_table.length := by
      have hocc := (Bool.and_eq_true _ _).mp hdue |>.1
      by_contra hlt
      push_neg at hlt
      rw [List.getD_eq_default _ _ (by simpa using hlt)] at hp
      exact hp rfl
    simp [List.getD, List.getElem?_set_self, hlen]
  · intro hp
    rw [fire_slot, if_neg (fun hcon => hcon hp)]
    refine ⟨rfl, ?_⟩
    have h65535 : (65535 : Nat) = 2 ^ 16 - 1 := by norm_num
    rw [Nat.testBit_and, Nat.testBit_xor, h65535, Nat.testBit_two_pow_sub_one,
      Nat.one_shiftLeft, Nat.testBit_two_pow_self]
    have h16 : slot < 16 := hslot
    simp [h16]

/-- Witness for the firing semantics: a table whose slot 0 holds a periodic
entry due at time 5 is re-armed for time 12, and a table whose slot 0 holds
a due one-shot entry is freed. -/
theorem check_callbacks_fire_semantics_witness :
    (check_callbacks ⟨⟨5, 7, 1, 9⟩ :: List.replicate 15 emptyEntry, 1, 5⟩).2 =
      [(0, 1, 9)] ∧
    ((check_callbacks ⟨⟨5, 7, 1, 9⟩ :: List.replicate 15 emptyEntry, 1,
        5⟩).1.callback_table.getD 0 emptyEntry).time = 12 ∧
    (check_callbacks ⟨⟨5, 0, 1, 9⟩ :: List.replicate 15 emptyEntry, 1,
        5⟩).1.callback_table_mask.testBit 0 = false := by
  have h1 := check_callbacks_fire_semantics
    ⟨⟨5, 7, 1, 9⟩ :: List.replicate 15 emptyEntry, 1, 5⟩ 0 (by decide)
    (fun k hk => absurd hk (by omega)) (by decide)
  have h2 := check_callbacks_fire_semantics
    ⟨⟨5, 0, 1, 9⟩ :: List.replicate 15 emptyEntry, 1, 5⟩ 0 (by decide)
    (fun k hk => absurd hk (by omega)) (by decide)
  refine ⟨by rw [h1.1]; decide, ?_, (h2.2.2 (by decide)).2⟩
  have := (h1.2.1 (by decide)).2
  rw [this]; decide

/-- The `systime_schedule_event` scan succeeds exactly when some listed slot
is free. -/
theorem schedule_event_aux_ok_iff (timestamp period cb arg : Nat) :
    ∀ (slots : List Nat) (st : SystimeState),
    ((systime_schedule_event_aux st timestamp period cb arg slots).2 =
        .SYSTIME_CALLBACK_OK ↔
      ∃ slot ∈ slots, st.callback_table_mask.testBit slot = false) := by
  intro slots
  induction slots with
  | nil => intro st; simp [systime_schedule_event_aux]
  | cons slot rest ih =>
    intro st
    by_cases h : st.callback_table_mask.testBit slot
    · simp only [systime_schedule_event_aux, add_callback, if_pos h]
      rw [ih st]
      constructor
      · rintro ⟨s, hs, hfree⟩
        exact ⟨s, by simp [hs], hfree⟩
      · rintro ⟨s, hs, hfree⟩
        rcases List.mem_cons.mp hs with he | hm
        · exact absurd (he ▸ h) (by simp [hfree])
        · exact ⟨s, hm, hfree⟩
    · refine ⟨fun _ => ⟨slot, by simp, by simpa using h⟩, fun _ => ?_⟩
      simp [systime_schedule_event_aux, add_callback, if_neg h]

/-- When every listed slot is occupied the scan fails and returns the state
unchanged. -/
theorem schedule_event_aux_full (timestamp period cb arg : Nat) :
    ∀ (slots : List Nat) (st : SystimeState),
    (∀ slot ∈ slots, st.callback_table_mask.testBit slot = true) →
    systime_schedule_event_aux st timestamp period cb arg slots =
      (st, .SYSTIME_NO_CALLBACK_SLOTS) := by
  intro slots
  induction slots with
  | nil => intro st _; rfl
  | cons slot rest ih =>
    intro st h
    have h1 := h slot (by simp)
    simp only [systime_schedule_event_aux, add_callback, if_pos h1]
    exact ih st fun s hs => h s (by simp [hs])

/-- The scan stores the new entry in the first free slot. -/
theorem schedule_event_aux_first_free (timestamp period cb arg : Nat) (st : SystimeState) :
    ∀ (n a slot : Nat), a ≤ slot → slot < a + n →
    (∀ k, a ≤ k → k < slot → st.callback_table_mask.testBit k = true) →
    st.callback_table_mask.testBit slot = false →
    systime_schedule_event_aux st timestamp period cb arg (List.range' a n) =
      ({ st with
          callback_table := st.callback_table.set slot ⟨timestamp, period, cb, arg⟩,
          callback_table_mask := st.callback_table_mask ||| (1 <<< slot) },
        .SYSTIME_CALLBACK_OK) := by
  intro n
  induction n with
  | zero => intro a slot h1 h2; omega
  | succ m ih =>
    intro a slot h1 h2 hbefore hfree
    rw [List.range'_succ]
    rcases Nat.eq_or_lt_of_le h1 with he | hlt
    · subst he
      simp [systime_schedule_event_aux, add_callback, hfree]
    · have ha := hbefore a (le_refl a) hlt
      simp only [systime_schedule_event_aux, add_callback, if_pos ha]
      exact ih (a + 1) slot hlt (by omega) (fun k hk1 hk2 => hbefore k (by omega) hk2) hfree

/-- C6 (confirmed): `schedule_event` returns the table-full error precisely
when all 16 slots are occupied, in which case the whole systime state is
returned unchanged; otherwise it returns success, fills the first free slot
with the given timestamp, period, callback and argument, marks exactly that
slot occupied, and leaves everything else — occupancy bits and table rows
alike — as it was. -/
theorem systime_schedule_event_spec (st : SystimeState)
    (timestamp period cb arg : Nat)
    (hlen : st.callback_table.length = MAX_NUM_CALLBACKS) :
    ((systime_schedule_event st timestamp period cb arg).2 =
        .SYSTIME_NO_CALLBACK_SLOTS ↔
      ∀ slot < MAX_NUM_CALLBACKS, st.callback_table_mask.testBit slot = true) ∧
    ((systime_schedule_event st timestamp period cb arg).2 =
        .SYSTIME_NO_CALLBACK_SLOTS →
      (systime_schedule_event st timestamp period cb arg).1 = st) ∧
    ((systime_schedule_event st timestamp period cb arg).2 =
        .SYSTIME_CALLBACK_OK →
      ∃ slot < MAX_NUM_CALLBACKS,
        st.callback_table_mask.testBit slot = false ∧
        (systime_schedule_event st timestamp period cb arg).1.callback_table.getD
          slot emptyEntry = ⟨timestamp, period, cb, arg⟩ ∧
        (systime_schedule_event st timestamp period cb
          arg).1.callback_table_mask.testBit slot = true ∧
        (∀ j, j ≠ slot →
          (systime_schedule_event st timestamp period cb
            arg).1.callback_table_mask.testBit j =
            st.callback_table_mask.testBit j) ∧
        (∀ j, j ≠ slot →
          (systime_schedule_event st timestamp period cb
            arg).1.callback_table.getD j emptyEntry =
            st.callback_table.getD j emptyEntry)) := by
  constructor
  · constructor
    · intro herr slot hslot
      by_contra hfree
      have hok := (schedule_event_aux_ok_iff timestamp period cb arg
        (List.range MAX_NUM_CALLBACKS) st).mpr
        ⟨slot, List.mem_range.mpr hslot, by simpa using hfree⟩
      rw [systime_schedule_event] at herr
      rw [hok] at herr
      exact systime_callback_error.noConfusion herr
    · intro hall
      rw [systime_schedule_event, schedule_event_aux_full timestamp period cb arg _ st
        (fun s hs => hall s (List.mem_range.mp hs))]
  constructor
  · intro herr
    by_cases hfree : ∃ slot ∈ List.range MAX_NUM_CALLBACKS,
        st.callback_table_mask.testBit slot = false
    · have hok := (schedule_event_aux_ok_iff timestamp period cb arg
        (List.range MAX_NUM_CALLBACKS) st).mpr hfree
      rw [systime_schedule_event] at herr
      rw [hok] at herr
      exact systime_callback_error.noConfusion herr
    · push_neg at hfree
      have hfull := schedule_event_aux_full timestamp period cb arg
        (List.range MAX_NUM_CALLBACKS) st (fun s hs => by simpa using hfree s hs)
      rw [systime_schedule_event, hfull]
  · intro hok
    have hex : ∃ slot ∈ List.range MAX_NUM_CALLBACKS,
        st.callback_table_mask.testBit slot = false := by
      rw [← schedule_event_aux_ok_iff timestamp period cb arg]
      exact hok
    have hexn : ∃ k, st.callback_table_mask.testBit k = false := by
      rcases hex with ⟨s, _, hs⟩; exact ⟨s, hs⟩
    classical
    let m := Nat.find hexn
    have hmfree : st.callback_table_mask.testBit m = false := Nat.find_spec hexn
    have hmmin : ∀ k, k < m → st.callback_table_mask.testBit k = true := by
      intro k hk
      have := Nat.find_min hexn hk
      simpa using this
    have hmlt : m < MAX_NUM_CALLBACKS := by
      rcases hex with ⟨s, hsmem, hs⟩
      have : m ≤ s := Nat.find_min' hexn hs
      exact lt_of_le_of_lt this (List.mem_range.mp hsmem)
    have hscan := schedule_event_aux_first_free timestamp period cb arg st
      MAX_NUM_CALLBACKS 0 m (Nat.zero_le _) (by omega)
      (fun k _ hk => hmmin k hk) hmfree
    refine ⟨m, hmlt, hmfree, ?_, ?_, ?_, ?_⟩
    · rw [systime_schedule_event, List.range_eq_range', hscan]
      have hmlen : m < st.callback_table.length := by rw [hlen]; exact hmlt
      simp [List.getD, List.getElem?_set_self, hmlen]
    · rw [systime_schedule_event, List.range_eq_range', hscan]
      simp only
      rw [Nat.testBit_or, Nat.one_shiftLeft, Nat.testBit_two_pow_self]
      simp
    · intro j hj
      rw [systime_schedule_event, List.range_eq_range', hscan]
      simp only
      rw [Nat.testBit_or, Nat.one_shiftLeft, Nat.testBit_two_pow_of_ne (Ne.symm hj)]
      simp
    · intro j hj
      rw [systime_schedule_event, List.range_eq_range', hscan]
      simp [List.getD, List.getElem?_set_ne (Ne.symm hj)]

/-- Witness for the schedule-event characterization: on the empty table the
call succeeds and stores the entry in slot 0; on the full-mask table it
fails and hands back the state untouched. -/
theorem systime_schedule_event_spec_witness :
    (systime_schedule_event systimeInit 40 7 1 9).2 = .SYSTIME_CALLBACK_OK ∧
    (systime_schedule_event systimeInit 40 7 1 9).1.callback_table.getD 0 emptyEntry =
      ⟨40, 7, 1, 9⟩ ∧
    (systime_schedule_event ⟨List.replicate 16 emptyEntry, 65535, 0⟩ 40 7 1 9).1 =
      ⟨List.replicate 16 emptyEntry, 65535, 0⟩ := by
  have h2 := systime_schedule_event_spec ⟨List.replicate 16 emptyEntry, 65535, 0⟩
    40 7 1 9 (by decide)
  exact ⟨by decide, by decide, h2.2.1 (h2.1.mpr (by decide))⟩

/-- Unfolding of one step of `runAddTasks`. -/
theorem runAddTasks_cons (st : SchedState) (e p : Nat) (rest : List (Nat × Nat)) :
    runAddTasks st ((e, p) :: rest) =
      ((runAddTasks (sched_add_task st e p).1 rest).1,
        (sched_add_task st e p).2 :: (runAddTasks (sched_add_task st e p).1 rest).2) := by
  rcases h1 : sched_add_task st e p with ⟨st2, r⟩
  rcases h2 : runAddTasks st2 rest with ⟨stf, rs⟩
  simp [runAddTasks, h1, h2]

/-- Position `i` of a run of `sched_add_task` calls succeeds exactly when the
starting fill counter plus `i` is below the capacity. -/
theorem runAddTasks_ok_iff :
    ∀ (calls : List (Nat × Nat)) (st : SchedState) (i : Nat), i < calls.length →
    ((runAddTasks st calls).2.getD i .SCHED_TOO_MANY_TASKS = .SCHED_OK ↔
      st.table_idx + i < MAX_NUM_TASKS) := by
  intro calls
  induction calls with
  | nil => intro st i hi; exact absurd hi (by simp)
  | cons c rest ih =>
    intro st i hi
    rcases c with ⟨e, p⟩
    rw [runAddTasks_cons]
    rcases i with _ | j
    · simp only [List.getD_cons_zero]
      by_cases hidx : st.table_idx ≥ MAX_NUM_TASKS
      · rw [sched_add_task, if_pos hidx]
        simp only
        constructor
        · intro h; exact absurd h (by simp)
        · intro h; omega
      · rw [sched_add_task, if_neg hidx]
        simp only
        exact ⟨fun _ => by omega, fun _ => trivial⟩
    · simp only [List.getD_cons_succ]
      rw [ih (sched_add_task st e p).1 j (by simpa using hi)]
      by_cases hidx : st.table_idx ≥ MAX_NUM_TASKS
      · rw [sched_add_task, if_pos hidx]
        simp only
        omega
      · rw [sched_add_task, if_neg hidx]
        simp only
        omega

/-- C7 (confirmed): `sched_add_task` on a full table returns the capacity
error with the task table and the fill counter untouched (the returned state
is literally the argument state), and in any run of calls starting from the
initial empty table exactly the first `MAX_NUM_TASKS` (= 10) calls succeed:
call `i` (0-based) returns `SCHED_OK` iff `i < 10`. -/
theorem sched_add_task_capacity :
    (∀ (st : SchedState) (e p : Nat), st.table_idx ≥ MAX_NUM_TASKS →
      sched_add_task st e p = (st, .SCHED_TOO_MANY_TASKS)) ∧
    (∀ (calls : List (Nat × Nat)) (i : Nat), i < calls.length →
      ((runAddTasks schedInit calls).2.getD i .SCHED_TOO_MANY_TASKS = .SCHED_OK ↔
        i < MAX_NUM_TASKS)) := by
  constructor
  · intro st e p h
    rw [sched_add_task, if_pos h]
  · intro calls i hi
    have := runAddTasks_ok_iff calls schedInit i hi
    simpa [schedInit] using this

/-- Witness for the capacity theorem: the 11th call of an 11-call run from
the empty table is refused, and a full-table call hands the state back
unchanged. -/
theorem sched_add_task_capacity_witness :
    sched_add_task ⟨List.replicate 10 emptyTask, 10⟩ 1 5 =
      (⟨List.replicate 10 emptyTask, 10⟩, .SCHED_TOO_MANY_TASKS) ∧
    ¬((runAddTasks schedInit (List.replicate 11 (1, 5))).2.getD 10
        .SCHED_TOO_MANY_TASKS = .SCHED_OK) ∧
    (runAddTasks schedInit (List.replicate 11 (1, 5))).2.getD 9
        .SCHED_TOO_MANY_TASKS = .SCHED_OK := by
  refine ⟨sched_add_task_capacity.1 ⟨List.replicate 10 emptyTask, 10⟩ 1 5 (by decide),
    fun hok => ?_, ?_⟩
  · have := (sched_add_task_capacity.2 (List.replicate 11 (1, 5)) 10 (by decide)).mp hok
    exact absurd this (by decide)
  · exact (sched_add_task_capacity.2 (List.replicate 11 (1, 5)) 9 (by decide)).mpr
      (by decide)

/-- C8 (confirmed): in timer-driven mode the interrupt-context code — the
timer tick with its `task_switch_callback` — performs no task entry and no
privilege transition (the `entered` trace and the mainline progress are
untouched, as is the task table); it only writes the `current_task`
reference and the log.  A task entry happens only in the `sched_run` loop
outside interrupt context: from an idle mainline with a non-null
`current_task` it enters exactly that task, and when the running task
finishes the loop resets `current_task` to null. -/
theorem interrupt_context_only_requests_switch :
    (∀ (s : SimState) (arg : Nat),
      (task_switch_callback s arg).entered = s.entered ∧
      (task_switch_callback s arg).mainline = s.mainline ∧
      (task_switch_callback s arg).time = s.time ∧
      (task_switch_callback s arg).sched = s.sched) ∧
    (∀ s : SimState,
      (tick_step s).entered = s.entered ∧
      (tick_step s).mainline = s.mainline ∧
      (tick_step s).sched = s.sched) ∧
    (∀ (s : SimState) (id : Nat), s.mainline = .idle → s.current_task = some id →
      mainline_step s =
        { s with
          mainline := .running id s.time.systime,
          entered := s.entered ++ [(id, s.time.systime)] }) ∧
    (∀ (s : SimState) (id start : Nat), s.mainline = .running id start →
      (start + WORKLOAD) % U32MOD ≤ s.time.systime →
      mainline_step s = { s with mainline := .idle, current_task := none }) := by
  have hcb : ∀ (s : SimState) (arg : Nat),
      (task_switch_callback s arg).entered = s.entered ∧
      (task_switch_callback s arg).mainline = s.mainline ∧
      (task_switch_callback s arg).time = s.time ∧
      (task_switch_callback s arg).sched = s.sched := by
    intro s arg
    rcases h : s.current_task with _ | cur
    · simp [task_switch_callback, h]
    · by_cases he : arg = cur <;> simp [task_switch_callback, h, he]
  refine ⟨hcb, ?_, ?_, ?_⟩
  · intro s
    rw [tick_step]
    rcases h : check_callbacks ({ s.time with systime := (s.time.systime + 1) % U32MOD })
      with ⟨st2, fired⟩
    rcases fired with _ | ⟨⟨slot, cb, arg⟩, rest⟩
    · simp
    · simp only
      rw [invoke_callback]
      by_cases hc : cb = CB_TASK_SWITCH
      · rw [if_pos hc]
        have := hcb { s with time := st2 } arg
        exact ⟨this.1, this.2.1, this.2.2.2⟩
      · rw [if_neg hc]
        exact ⟨rfl, rfl, rfl⟩
  · intro s id hml hcur
    simp [mainline_step, hml, hcur]
  · intro s id start hml hdone
    simp [mainline_step, hml, if_pos hdone]

/-- Witness for the interrupt-context discipline: on a concrete idle state
with task 3 requested the callback adds no task entry, the run loop enters
task 3, and on a concrete finished-task state the loop goes idle clearing
the reference. -/
theorem interrupt_context_only_requests_switch_witness :
    (task_switch_callback ⟨systimeInit, schedInit, some 3, .idle, [], []⟩ 2).entered = [] ∧
    mainline_step ⟨systimeInit, schedInit, some 3, .idle, [], []⟩ =
      ⟨systimeInit, schedInit, some 3, .running 3 0, [], [(3, 0)]⟩ ∧
    mainline_step ⟨⟨List.replicate 16 emptyEntry, 0, 1000⟩, schedInit, none,
        .running 4 0, [], []⟩ =
      ⟨⟨List.replicate 16 emptyEntry, 0, 1000⟩, schedInit, none, .idle, [], []⟩ := by
  have h := interrupt_context_only_requests_switch
  refine ⟨(h.1 ⟨systimeInit, schedInit, some 3, .idle, [], []⟩ 2).1, ?_, ?_⟩
  · have h2 := h.2.2.1 ⟨systimeInit, schedInit, some 3, .idle, [], []⟩ 3 rfl rfl
    exact h2.trans (by rfl)
  · have h3 := h.2.2.2 ⟨⟨List.replicate 16 emptyEntry, 0, 1000⟩, schedInit, none,
      .running 4 0, [], []⟩ 4 0 rfl (by decide)
    exact h3.trans (by rfl)

/-- Iteration of the simulation splits over sums of tick counts. -/
theorem simIter_add (a b : Nat) (s : SimState) :
    simIter (a + b) s = simIter b (simIter a s) := by
  induction a generalizing s with
  | zero => rw [Nat.zero_add]; rfl
  | succ n ih =>
    have h1 : n + 1 + b = (n + b) + 1 := by omega
    rw [h1, simIter, simIter, ih]

/-- Composition of counter advances. -/
theorem bump_bump (a b : Nat) (s : SimState) : bump a (bump b s) = bump (b + a) s := by
  rcases s with ⟨t, sc, cur, ml, lg, ent⟩
  rcases t with ⟨tab, mask, sys⟩
  simp [bump, Nat.add_assoc]

/-- Unfolded reading of the `quietOk` check. -/
theorem quietOk_iff (s : SimState) (k : Nat) :
    quietOk s k = true ↔
      (s.time.systime + k < U32MOD ∧
       (∀ slot < MAX_NUM_CALLBACKS, s.time.callback_table_mask.testBit slot = true →
         s.time.systime + k < (s.time.callback_table.getD slot emptyEntry).time) ∧
       (s.mainline = MainState.idle → s.current_task = none) ∧
       (∀ id start, s.mainline = MainState.running id start →
         s.time.systime + k < (start + WORKLOAD) % U32MOD)) := by
  have hslots : ((List.range MAX_NUM_CALLBACKS).all fun slot =>
        !(s.time.callback_table_mask.testBit slot) ||
          decide (s.time.systime + k <
            (s.time.callback_table.getD slot emptyEntry).time)) = true ↔
      (∀ slot < MAX_NUM_CALLBACKS, s.time.callback_table_mask.testBit slot = true →
        s.time.systime + k < (s.time.callback_table.getD slot emptyEntry).time) := by
    rw [List.all_eq_true]
    constructor
    · intro h slot hs hocc
      have h2 := h slot (List.mem_range.mpr hs)
      rw [Bool.or_eq_true, Bool.not_eq_true'] at h2
      rcases h2 with h2 | h2
      · rw [hocc] at h2; exact Bool.noConfusion h2
      · exact of_decide_eq_true h2
    · intro h slot hs
      rw [Bool.or_eq_true, Bool.not_eq_true']
      by_cases hocc : s.time.callback_table_mask.testBit slot = true
      · exact Or.inr (decide_eq_true (h slot (List.mem_range.mp hs) hocc))
      · exact Or.inl (by simpa using hocc)
  unfold quietOk
  rw [Bool.and_eq_true, Bool.and_eq_true, decide_eq_true_eq, hslots]
  rcases hml : s.mainline with _ | ⟨id, start⟩
  · constructor
    · rintro ⟨⟨h1, h2⟩, h3⟩
      exact ⟨h1, h2, fun _ => Option.isNone_iff_eq_none.mp h3,
        fun i st hcon => MainState.noConfusion hcon⟩
    · rintro ⟨h1, h2, h3, _⟩
      exact ⟨⟨h1, h2⟩, Option.isNone_iff_eq_none.mpr (h3 rfl)⟩
  · constructor
    · rintro ⟨⟨h1, h2⟩, h3⟩
      refine ⟨h1, h2, fun hcon => MainState.noConfusion hcon, ?_⟩
      rintro i st hcon
      injection hcon with h4 h5
      subst h4; subst h5
      exact of_decide_eq_true h3
    · rintro ⟨h1, h2, _, h4⟩
      exact ⟨⟨h1, h2⟩, decide_eq_true (h4 id start rfl)⟩

/-- Over an interval in which no event becomes due, no task finishes and no
task entry is pending, the simulation only advances the tick counter. -/
theorem simIter_quiet : ∀ (k : Nat) (s : SimState), quietOk s k = true →
    simIter k s = bump k s := by
  intro k
  induction k with
  | zero =>
    intro s _
    rfl
  | succ n ih =>
    intro s h
    obtain ⟨hwrap, hslots, hidle, hrun⟩ := (quietOk_iff s (n + 1)).mp h
    have hm : (s.time.systime + 1) % U32MOD = s.time.systime + 1 :=
      Nat.mod_eq_of_lt (by omega)
    have hdue : ∀ slot ∈ List.range MAX_NUM_CALLBACKS,
        dueOcc { s.time with systime := s.time.systime + 1 } slot = false := by
      intro slot hs
      have hs16 := List.mem_range.mp hs
      have hproj : dueOcc { s.time with systime := s.time.systime + 1 } slot =
          (s.time.callback_table_mask.testBit slot &&
           systime_event_due (s.time.callback_table.getD slot emptyEntry).time
             (s.time.systime + 1)) := rfl
      rw [hproj]
      by_cases hocc : s.time.callback_table_mask.testBit slot = true
      · have hlt := hslots slot hs16 hocc
        have hfalse : systime_event_due
            (s.time.callback_table.getD slot emptyEntry).time (s.time.systime + 1) =
              false := by
          rw [systime_event_due, decide_eq_false_iff_not]
          omega
        rw [hocc, hfalse]
        rfl
      · rw [Bool.not_eq_true] at hocc
        rw [hocc, Bool.false_and]
    have hchk := check_callbacks_aux_none (List.range MAX_NUM_CALLBACKS)
      { s.time with systime := s.time.systime + 1 } hdue
    have htick : tick_step s = bump 1 s := by
      simp only [tick_step, hm, check_callbacks, hchk, bump]
    have hstep : simStep s = bump 1 s := by
      rw [simStep, htick]
      rcases hml : s.mainline with _ | ⟨id, start⟩
      · have hcur : s.current_task = none := hidle hml
        simp [mainline_step, bump, hml, hcur]
      · have hlt := hrun id start hml
        have hnot : ¬((start + WORKLOAD) % U32MOD ≤ (bump 1 s).time.systime) := by
          simp only [bump]
          omega
        simp [mainline_step, bump, hml, hnot]
        omega
    have hq : quietOk (bump 1 s) n = true := by
      rw [quietOk_iff]
      refine ⟨by simp [bump]; omega, ?_, ?_, ?_⟩
      · intro slot hs hocc
        simp only [bump] at hocc ⊢
        have := hslots slot hs hocc
        omega
      · intro hml2
        simp only [bump] at hml2 ⊢
        exact hidle hml2
      · intro id start hml2
        simp only [bump] at hml2 ⊢
        have := hrun id start hml2
        omega
    rw [simIter, hstep, ih (bump 1 s) hq, bump_bump, Nat.add_comm 1 n]

/-- A 1000-tick segment consisting of 999 quiet ticks followed by one
computed step. -/
theorem seg1000 (s t : SimState) (hq : quietOk s 999 = true)
    (hstep : simIter 1 (bump 999 s) = t) : simIter 1000 s = t := by
  rw [show (1000 : Nat) = 999 + 1 from by norm_num, simIter_add,
    simIter_quiet 999 s hq, hstep]

/-- The walkthrough scenario, run for 10001 ticks from `sched_run` startup,
lands exactly on the computed final state. -/
theorem scenario_chain : simAfter 10001 = scenarioSnap 11 := by
  have h0 : simStartFor scenarioTasks = scenarioSnap 0 := by decide
  have e1 : simIter 1000 (scenarioSnap 0) = scenarioSnap 1 :=
    seg1000 _ _ (by decide) (by decide)
  have e2 : simIter 1000 (scenarioSnap 1) = scenarioSnap 2 :=
    seg1000 _ _ (by decide) (by decide)
  have e3 : simIter 1000 (scenarioSnap 2) = scenarioSnap 3 :=
    seg1000 _ _ (by decide) (by decide)
  have e4 : simIter 1000 (scenarioSnap 3) = scenarioSnap 4 :=
    seg1000 _ _ (by decide) (by decide)
  have e5 : simIter 1000 (scenarioSnap 4) = scenarioSnap 5 :=
    seg1000 _ _ (by decide) (by decide)
  have e6 : simIter 1000 (scenarioSnap 5) = scenarioSnap 6 :=
    seg1000 _ _ (by decide) (by decide)
  have e7 : simIter 1000 (scenarioSnap 6) = scenarioSnap 7 :=
    seg1000 _ _ (by decide) (by decide)
  have e8 : simIter 1000 (scenarioSnap 7) = scenarioSnap 8 :=
    seg1000 _ _ (by decide) (by decide)
  have e9 : simIter 1000 (scenarioSnap 8) = scenarioSnap 9 :=
    seg1000 _ _ (by decide) (by decide)
  have e10 : simIter 1000 (scenarioSnap 9) = scenarioSnap 10 :=
    seg1000 _ _ (by decide) (by decide)
  have e11 : simIter 1 (scenarioSnap 10) = scenarioSnap 11 := by decide
  show simIter 10001 (simStartFor scenarioTasks) = _
  rw [h0]
  rw [show (10001 : Nat) = 1000 + 9001 from by norm_num, simIter_add, e1]
  rw [show (9001 : Nat) = 1000 + 8001 from by norm_num, simIter_add, e2]
  rw [show (8001 : Nat) = 1000 + 7001 from by norm_num, simIter_add, e3]
  rw [show (7001 : Nat) = 1000 + 6001 from by norm_num, simIter_add, e4]
  rw [show (6001 : Nat) = 1000 + 5001 from by norm_num, simIter_add, e5]
  rw [show (5001 : Nat) = 1000 + 4001 from by norm_num, simIter_add, e6]
  rw [show (4001 : Nat) = 1000 + 3001 from by norm_num, simIter_add, e7]
  rw [show (3001 : Nat) = 1000 + 2001 from by norm_num, simIter_add, e8]
  rw [show (2001 : Nat) = 1000 + 1001 from by norm_num, simIter_add, e9]
  rw [show (1001 : Nat) = 1000 + 1 from by norm_num, simIter_add, e10]
  exact e11

/-- C9 (counterexample): in the walkthrough scenario — task 0 with period
5000 added first, task 1 with period 2000 added second, each busy for 1000
ticks — the context-switch log of the first 10001 ticks is not the claimed
five-transition sequence (to B at 2000, to A at 5000, to B at 6000, to A at
10000, to B at 10001): the run loop idles after each 1000-tick task body,
so task 1's periodic callback also logs transitions at ticks 4000 and
8000. -/
theorem scenario_log_counterexample :
    ¬((simAfter 10001).log.map (fun e => (e.time, e.toTask)) =
      [(2000, 1), (5000, 0), (6000, 1), (10000, 0), (10001, 1)]) := by
  rw [scenario_chain]
  decide

/-- C9 (amended, proved): the logged transitions of the first 10001 ticks
are exactly: to task 1 at 2000, to task 1 at 4000, task 1 to task 0 at
5000, to task 1 at 6000, to task 1 at 8000, to task 0 at 10000, and task 0
to task 1 at 10001 — in particular the five transitions named by the claim
do occur in that relative order, and the simultaneous due times at tick
10000 are resolved as a switch to task 0 at 10000 with task 1's switch
deferred to tick 10001. -/
theorem scenario_log_amended :
    (simAfter 10001).log =
      [⟨2000, none, 1⟩, ⟨4000, none, 1⟩, ⟨5000, some 1, 0⟩, ⟨6000, none, 1⟩,
       ⟨8000, none, 1⟩, ⟨10000, none, 0⟩, ⟨10001, some 0, 1⟩] ∧
    [(2000, 1), (5000, 0), (6000, 1), (10000, 0), (10001, 1)].Sublist
      ((simAfter 10001).log.map fun e => (e.time, e.toTask)) := by
  rw [scenario_chain]
  exact ⟨by decide, by decide⟩

/-- Scheduling an event never touches the tick counter. -/
theorem schedule_event_aux_systime (t p cb a : Nat) :
    ∀ (slots : List Nat) (st : SystimeState),
    (systime_schedule_event_aux st t p cb a slots).1.systime = st.systime := by
  intro slots
  induction slots with
  | nil => intro st; rfl
  | cons slot rest ih =>
    intro st
    by_cases h : st.callback_table_mask.testBit slot
    · simp only [systime_schedule_event_aux, add_callback, if_pos h]
      exact ih st
    · simp only [systime_schedule_event_aux, add_callback, if_neg h]

/-- The event-registration loop of `sched_run` writes only the event table:
task table, `current_task`, mainline progress, log, entry trace and the
tick counter all stay as they were. -/
theorem sched_run_register_frame :
    ∀ (slots : List Nat) (s : SimState),
    (sched_run_register s slots).sched = s.sched ∧
    (sched_run_register s slots).current_task = s.current_task ∧
    (sched_run_register s slots).mainline = s.mainline ∧
    (sched_run_register s slots).log = s.log ∧
    (sched_run_register s slots).entered = s.entered ∧
    (sched_run_register s slots).time.systime = s.time.systime := by
  intro slots
  induction slots with
  | nil => intro s; exact ⟨rfl, rfl, rfl, rfl, rfl, rfl⟩
  | cons i rest ih =>
    intro s
    rw [sched_run_register]
    by_cases h : (s.sched.task_table.getD i emptyTask).entry = 0
    · rw [if_pos h]
      exact ih s
    · rw [if_neg h]
      rcases hse : systime_schedule_event s.time
          ((((s.sched.task_table.getD i emptyTask).last_run +
            (s.sched.task_table.getD i emptyTask).period) % U32MOD))
          (s.sched.task_table.getD i emptyTask).period CB_TASK_SWITCH
          (s.sched.task_table.getD i emptyTask).id with ⟨st2, r⟩
      have hsys : st2.systime = s.time.systime := by
        have := schedule_event_aux_systime
          (((s.sched.task_table.getD i emptyTask).last_run +
            (s.sched.task_table.getD i emptyTask).period) % U32MOD)
          (s.sched.task_table.getD i emptyTask).period CB_TASK_SWITCH
          (s.sched.task_table.getD i emptyTask).id
          (List.range MAX_NUM_CALLBACKS) s.time
        rw [← systime_schedule_event, hse] at this
        exact this
      simp only [hse]
      have hrec := ih { s with time := st2 }
      exact ⟨hrec.1, hrec.2.1, hrec.2.2.1, hrec.2.2.2.1, hrec.2.2.2.2.1,
        hrec.2.2.2.2.2.trans hsys⟩

/-- C10 (confirmed): whenever the timer-driven `sched_run` starts with the
first-added task registered (task-table slot 0 has a non-null entry), the
setup phase unconditionally points `current_task` at table index 0 before
any timer event has fired (tick counter still 0, empty log), and the run
loop's first pass enters that task at tick 0 — regardless of the task's
period and with no logged transition. -/
theorem sched_run_starts_first_task (tasks : List (Nat × Nat))
    (_hne : ((runAddTasks schedInit tasks).1.task_table.getD 0 emptyTask).entry ≠ 0) :
    (sched_run_setup (simInitFor tasks)).current_task = some 0 ∧
    (sched_run_setup (simInitFor tasks)).log = [] ∧
    (sched_run_setup (simInitFor tasks)).entered = [] ∧
    (sched_run_setup (simInitFor tasks)).time.systime = 0 ∧
    (simStartFor tasks).entered = [(0, 0)] ∧
    (simStartFor tasks).log = [] ∧
    (simStartFor tasks).mainline = .running 0 0 := by
  have hf := sched_run_register_frame (List.range MAX_NUM_TASKS) (simInitFor tasks)
  have hcur : (sched_run_setup (simInitFor tasks)).current_task = some 0 := rfl
  have hlog : (sched_run_setup (simInitFor tasks)).log = [] := by
    show (sched_run_register (simInitFor tasks) (List.range MAX_NUM_TASKS)).log = []
    rw [hf.2.2.2.1]
    rfl
  have hent : (sched_run_setup (simInitFor tasks)).entered = [] := by
    show (sched_run_register (simInitFor tasks) (List.range MAX_NUM_TASKS)).entered = []
    rw [hf.2.2.2.2.1]
    rfl
  have hsys : (sched_run_setup (simInitFor tasks)).time.systime = 0 := by
    show (sched_run_register (simInitFor tasks)
      (List.range MAX_NUM_TASKS)).time.systime = 0
    rw [hf.2.2.2.2.2]
    rfl
  have hml : (sched_run_setup (simInitFor tasks)).mainline = .idle := by
    show (sched_run_register (simInitFor tasks) (List.range MAX_NUM_TASKS)).mainline =
      .idle
    rw [hf.2.2.1]
    rfl
  refine ⟨hcur, hlog, hent, hsys, ?_, ?_, ?_⟩
  · show (mainline_step (sched_run_setup (simInitFor tasks))).entered = [(0, 0)]
    simp only [mainline_step, hml, hcur, hent, hsys, List.nil_append]
  · show (mainline_step (sched_run_setup (simInitFor tasks))).log = []
    simp only [mainline_step, hml, hcur, hlog]
  · show (mainline_step (sched_run_setup (simInitFor tasks))).mainline = .running 0 0
    simp only [mainline_step, hml, hcur, hsys]

/-- Witness for the startup behavior: with a single task of entry code 1 and
period 5000, the run loop enters task 0 at tick 0 with an empty log. -/
theorem sched_run_starts_first_task_witness :
    (simStartFor [(1, 5000)]).entered = [(0, 0)] ∧
    (simStartFor [(1, 5000)]).log = [] ∧
    (simStartFor [(1, 5000)]).mainline = .running 0 0 := by
  have h := sched_run_starts_first_task [(1, 5000)] (by decide)
  exact ⟨h.2.2.2.2.1, h.2.2.2.2.2.1, h.2.2.2.2.2.2⟩

/-- C3 (confirmed): on every invocation of the interrupt dispatcher the
acknowledge read comes first, the reaction mapped to the returned
identifier is invoked when one is registered (and nothing is invoked
otherwise), and the end-of-interrupt write with that same identifier is the
final action on both paths — completion is never skipped. -/
theorem irq_handler_ack_then_reaction_then_eoi (ciar : Nat) (callback : Nat → Option Nat) :
    (irq_handler ciar callback).head? =
      some (GicEvent.ack (gic_acknowledge_interrupt ciar)) ∧
    (irq_handler ciar callback).getLast? =
      some (GicEvent.eoi (gic_acknowledge_interrupt ciar)) ∧
    (match callback (gic_acknowledge_interrupt ciar) with
     | some isr =>
        irq_handler ciar callback =
          [GicEvent.ack (gic_acknowledge_interrupt ciar), GicEvent.run isr,
           GicEvent.eoi (gic_acknowledge_interrupt ciar)]
     | none =>
        irq_handler ciar callback =
          [GicEvent.ack (gic_acknowledge_interrupt ciar),
           GicEvent.eoi (gic_acknowledge_interrupt ciar)]) := by
  cases h : callback (gic_acknowledge_interrupt ciar) <;>
    simp [irq_handler, h, List.getLast?]

end Baremetal
